import Mathlib

/-!
Verification development for the ESP32 "AI Companion" firmware
(`firmware/src/main.cpp`) and its React Native companion application
(`mobile-app/AICompanionApp/App.tsx`).

The firmware keeps a bounded message history:

  const int MAX_MESSAGES = 10;
  String message_queue[MAX_MESSAGES];
  int message_count = 0;
  int current_message_index = 0;

We embed the array as a `List String` that always has length
`MAX_MESSAGES`; slots at indices `≥ message_count` hold the strings left
over from initialization or earlier shifts, exactly as in the C++ array.
The text currently shown on the LVGL label is embedded as the `display`
field (the C++ mutates the label via `lv_label_set_text`).
-/

def MAX_MESSAGES : Nat := 10

structure HistoryState where
  message_queue : List String
  message_count : Nat
  current_message_index : Nat
  display : String
deriving Repr, DecidableEq

/-- Boot-time state: the global `String message_queue[10]` default-initializes
to empty strings, `message_count = 0`, `current_message_index = 0`, and the
label text set in `setup_ui`. -/
def initialState : HistoryState :=
  { message_queue := List.replicate MAX_MESSAGES ""
    message_count := 0
    current_message_index := 0
    display := "ESP32 Ready!\nWaiting for phone connection..." }

/-- Embedding of `add_message_to_queue` (main.cpp lines 371-397).
If `message_count < MAX_MESSAGES` the message is stored at index
`message_count` and the count is incremented; otherwise the loop
`for i in [0, MAX_MESSAGES-2]: queue[i] = queue[i+1]` shifts every entry one
slot toward the front (on a length-10 list this is `drop 1`) and the new
message is stored in the last slot.  Then `current_message_index` is set to
`message_count - 1`, clamped to `MAX_MESSAGES - 1`, and when
`message_count > 0` the label is set to `message_queue[current_message_index]`. -/
def add_message_to_queue (s : HistoryState) (message : String) : HistoryState :=
  let qc : List String × Nat :=
    if s.message_count < MAX_MESSAGES then
      (s.message_queue.set s.message_count message, s.message_count + 1)
    else
      (s.message_queue.drop 1 ++ [message], s.message_count)
  let queue := qc.1
  let count := qc.2
  let idx0 := count - 1
  let idx := if MAX_MESSAGES ≤ idx0 then MAX_MESSAGES - 1 else idx0
  { message_queue := queue
    message_count := count
    current_message_index := idx
    display := if 0 < count then queue.getD idx s.display else s.display }

/-- Embedding of `display_next_message` (main.cpp lines 399-405):
`if (message_count > 0 && current_message_index < message_count - 1)` then
increment the cursor and show `message_queue[current_message_index]`. -/
def display_next_message (s : HistoryState) : HistoryState :=
  if 0 < s.message_count ∧ s.current_message_index < s.message_count - 1 then
    { s with
      current_message_index := s.current_message_index + 1
      display := s.message_queue.getD (s.current_message_index + 1) s.display }
  else s

/-- Embedding of `display_previous_message` (main.cpp lines 407-413):
`if (message_count > 0 && current_message_index > 0)` then decrement the
cursor and show `message_queue[current_message_index]`. -/
def display_previous_message (s : HistoryState) : HistoryState :=
  if 0 < s.message_count ∧ 0 < s.current_message_index then
    { s with
      current_message_index := s.current_message_index - 1
      display := s.message_queue.getD (s.current_message_index - 1) s.display }
  else s

/-- Fold a whole sequence of appends over the boot state. -/
def appendAll (msgs : List String) : HistoryState :=
  msgs.foldl add_message_to_queue initialState

/-- The meaningful entries of the queue: the first `message_count` slots. -/
def entries (s : HistoryState) : List String :=
  s.message_queue.take s.message_count


/-!
JSON values and parsing

`MyCallbacks::onWrite` (main.cpp lines 104-143) parses the received bytes
with ArduinoJson's `deserializeJson` and reads `doc["type"] | ""` and
`doc["message"] | ""`.  We embed JSON documents as the inductive `Json`
and `deserializeJson` as a recursive-descent reader of standard JSON
(objects, arrays, strings with escapes, numeric literals, `true`, `false`,
`null`).  Numeric literals are kept as their source text: no handler in the
firmware reads a numeric field.  The reader is fueled; the fuel passed at
the top level (`2 * length + 2`) exceeds any possible nesting depth
(ArduinoJson itself enforces a nesting limit).
-/

inductive Json where
  | null
  | bool (b : Bool)
  | num (lit : String)
  | str (s : String)
  | arr (elems : List Json)
  | obj (fields : List (String × Json))
deriving Repr

def quoteCh : Char := Char.ofNat 34

def backslashCh : Char := Char.ofNat 92

def lbraceCh : Char := Char.ofNat 123

def rbraceCh : Char := Char.ofNat 125

def isJsonWs (c : Char) : Bool :=
  c = ' ' || c = '\n' || c = '\r' || c = '\t'

def skipWs : List Char → List Char
  | [] => []
  | c :: cs => if isJsonWs c then skipWs cs else c :: cs

def hexVal (c : Char) : Option Nat :=
  if '0' ≤ c ∧ c ≤ '9' then some (c.toNat - 48)
  else if 'a' ≤ c ∧ c ≤ 'f' then some (c.toNat - 87)
  else if 'A' ≤ c ∧ c ≤ 'F' then some (c.toNat - 55)
  else none

def escCh (e : Char) : Option Char :=
  if e = quoteCh then some quoteCh
  else if e = backslashCh then some backslashCh
  else if e = '/' then some '/'
  else if e = 'b' then some (Char.ofNat 8)
  else if e = 'f' then some (Char.ofNat 12)
  else if e = 'n' then some '\n'
  else if e = 'r' then some '\r'
  else if e = 't' then some '\t'
  else none

/-- Read the body of a JSON string after its opening quote, returning the
decoded characters and the input after the closing quote. -/
def parseStringBody (fuel : Nat) (cs : List Char) : Option (List Char × List Char) :=
  match fuel with
  | 0 => none
  | fuel + 1 =>
    match cs with
    | [] => none
    | c :: rest =>
      if c = quoteCh then some ([], rest)
      else if c = backslashCh then
        match rest with
        | [] => none
        | e :: rest2 =>
          if e = 'u' then
            match rest2 with
            | a :: b :: c2 :: d :: rest3 =>
              match hexVal a, hexVal b, hexVal c2, hexVal d with
              | some ha, some hb, some hc, some hd =>
                match parseStringBody fuel rest3 with
                | some (out, rem) =>
                  some (Char.ofNat (((ha * 16 + hb) * 16 + hc) * 16 + hd) :: out, rem)
                | none => none
              | _, _, _, _ => none
            | _ => none
          else
            match escCh e with
            | some ec =>
              match parseStringBody fuel rest2 with
              | some (out, rem) => some (ec :: out, rem)
              | none => none
            | none => none
      else
        match parseStringBody fuel rest with
        | some (out, rem) => some (c :: out, rem)
        | none => none

def takeDigits : List Char → List Char × List Char
  | [] => ([], [])
  | c :: cs =>
    if c.isDigit then
      let dr := takeDigits cs
      (c :: dr.1, dr.2)
    else ([], c :: cs)

def parseFracPart (cs : List Char) : Option (List Char × List Char) :=
  match cs with
  | [] => some ([], [])
  | c :: rest =>
    if c = '.' then
      match takeDigits rest with
      | ([], _) => none
      | (ds, r) => some (c :: ds, r)
    else some ([], c :: rest)

def parseExpPart (cs : List Char) : Option (List Char × List Char) :=
  match cs with
  | [] => some ([], [])
  | c :: rest =>
    if c = 'e' ∨ c = 'E' then
      let sr : List Char × List Char :=
        match rest with
        | s :: r2 => if s = '+' ∨ s = '-' then ([s], r2) else ([], rest)
        | [] => ([], [])
      match takeDigits sr.2 with
      | ([], _) => none
      | (ds, r) => some (c :: sr.1 ++ ds, r)
    else some ([], c :: rest)

def parseNumberLit (cs : List Char) : Option (String × List Char) :=
  let mr : List Char × List Char :=
    match cs with
    | c :: rest => if c = '-' then ([c], rest) else ([], c :: rest)
    | [] => ([], [])
  match takeDigits mr.2 with
  | ([], _) => none
  | (ds, cs2) =>
    match parseFracPart cs2 with
    | none => none
    | some (fr, cs3) =>
      match parseExpPart cs3 with
      | none => none
      | some (ex, cs4) => some (String.mk (mr.1 ++ ds ++ fr ++ ex), cs4)

mutual

def parseValue (fuel : Nat) (cs : List Char) : Option (Json × List Char) :=
  match fuel with
  | 0 => none
  | fuel + 1 =>
    match skipWs cs with
    | [] => none
    | c :: rest =>
      if c = quoteCh then
        match parseStringBody (rest.length + 1) rest with
        | some (chars, rem) => some (.str (String.mk chars), rem)
        | none => none
      else if c = lbraceCh then
        match parseObjectBody fuel rest with
        | some (fields, rem) => some (.obj fields, rem)
        | none => none
      else if c = '[' then
        match parseArrayBody fuel rest with
        | some (elems, rem) => some (.arr elems, rem)
        | none => none
      else if c = 't' then
        match rest with
        | 'r' :: 'u' :: 'e' :: rem => some (.bool true, rem)
        | _ => none
      else if c = 'f' then
        match rest with
        | 'a' :: 'l' :: 's' :: 'e' :: rem => some (.bool false, rem)
        | _ => none
      else if c = 'n' then
        match rest with
        | 'u' :: 'l' :: 'l' :: rem => some (.null, rem)
        | _ => none
      else if c = '-' ∨ c.isDigit then
        match parseNumberLit (c :: rest) with
        | some (lit, rem) => some (.num lit, rem)
        | none => none
      else none

def parseObjectBody (fuel : Nat) (cs : List Char) : Option (List (String × Json) × List Char) :=
  match fuel with
  | 0 => none
  | fuel + 1 =>
    match skipWs cs with
    | [] => none
    | c :: rest =>
      if c = rbraceCh then some ([], rest)
      else parseMembers fuel (c :: rest)

def parseMembers (fuel : Nat) (cs : List Char) : Option (List (String × Json) × List Char) :=
  match fuel with
  | 0 => none
  | fuel + 1 =>
    match skipWs cs with
    | [] => none
    | c :: rest =>
      if c = quoteCh then
        match parseStringBody (rest.length + 1) rest with
        | some (keyChars, cs2) =>
          match skipWs cs2 with
          | [] => none
          | k :: cs4 =>
            if k = ':' then
              match parseValue fuel cs4 with
              | some (v, cs5) =>
                match skipWs cs5 with
                | [] => none
                | m :: cs7 =>
                  if m = ',' then
                    match parseMembers fuel cs7 with
                    | some (more, rem) => some ((String.mk keyChars, v) :: more, rem)
                    | none => none
                  else if m = rbraceCh then some ([(String.mk keyChars, v)], cs7)
                  else none
              | none => none
            else none
        | none => none
      else none

def parseArrayBody (fuel : Nat) (cs : List Char) : Option (List Json × List Char) :=
  match fuel with
  | 0 => none
  | fuel + 1 =>
    match skipWs cs with
    | [] => none
    | c :: rest =>
      if c = ']' then some ([], rest)
      else parseElements fuel (c :: rest)

def parseElements (fuel : Nat) (cs : List Char) : Option (List Json × List Char) :=
  match fuel with
  | 0 => none
  | fuel + 1 =>
    match parseValue fuel cs with
    | some (v, cs2) =>
      match skipWs cs2 with
      | [] => none
      | m :: cs3 =>
        if m = ',' then
          match parseElements fuel cs3 with
          | some (more, rem) => some (v :: more, rem)
          | none => none
        else if m = ']' then some ([v], cs3)
        else none
    | none => none

end

/-- Embedding of `deserializeJson`: parse one JSON document and require that
only whitespace follows it.  `none` models a `DeserializationError`. -/
def parseJson (s : String) : Option Json :=
  match parseValue (2 * s.length + 2) s.data with
  | some (j, rem) => if skipWs rem = [] then some j else none
  | none => none

/-- Embedding of `doc["key"] | "dflt"` for string-valued fields: the first
binding of `key` when it is a string, the default otherwise. -/
def jsonLookup (j : Json) (key : String) : Option Json :=
  match j with
  | .obj fields => fields.lookup key
  | _ => none

def getStrOr (j : Json) (key : String) (dflt : String) : String :=
  match jsonLookup j key with
  | some (.str s) => s
  | _ => dflt


/-!
Outbound frames: `send_ble_message` (main.cpp lines 469-508)

`send_ble_message` serializes `\x7b"type":...,"message":...,"action":...\x7d`
with `serializeJson`, then — only when `deviceConnected` and
`pTxCharacteristic != nullptr` — notifies the value, truncating the encoded
bytes to `MAX_NOTIFICATION_SIZE = 200` first when they are longer
(`json_string.substring(0, MAX_NOTIFICATION_SIZE)`).  Arduino `String`
lengths and `substring` work on UTF-8 bytes, so the encoded frame is
embedded as its list of UTF-8 bytes (`List Nat`).  The return value is the
notified payload, `none` when the send is dropped.
-/

def utf8Bytes (c : Char) : List Nat :=
  let n := c.toNat
  if n < 128 then [n]
  else if n < 2048 then [192 + n / 64, 128 + n % 64]
  else if n < 65536 then [224 + n / 4096, 128 + n / 64 % 64, 128 + n % 64]
  else [240 + n / 262144, 128 + n / 4096 % 64, 128 + n / 64 % 64, 128 + n % 64]

def strBytes (s : String) : List Nat :=
  (s.data.map utf8Bytes).flatten

/-- Escaping of one character inside a JSON string, as `serializeJson` emits it. -/
def escapeJsonChar (c : Char) : List Char :=
  if c = quoteCh then [backslashCh, quoteCh]
  else if c = backslashCh then [backslashCh, backslashCh]
  else if c = '\n' then [backslashCh, 'n']
  else if c = '\r' then [backslashCh, 'r']
  else if c = '\t' then [backslashCh, 't']
  else if c.toNat = 8 then [backslashCh, 'b']
  else if c.toNat = 12 then [backslashCh, 'f']
  else if c.toNat < 16 then [backslashCh, 'u', '0', '0', '0', Nat.digitChar c.toNat]
  else if c.toNat < 32 then [backslashCh, 'u', '0', '0', '1', Nat.digitChar (c.toNat - 16)]
  else [c]

def escapeJson (s : String) : String :=
  String.mk ((s.data.map escapeJsonChar).flatten)

/-- The JSON text `serializeJson` produces for the three-field document
built in `send_ble_message`. -/
def frameJson (type message action : String) : String :=
  "\x7b\"type\":\"" ++ escapeJson type ++ "\",\"message\":\"" ++ escapeJson message
    ++ "\",\"action\":\"" ++ escapeJson action ++ "\"\x7d"

def serializeFrame (type message action : String) : List Nat :=
  strBytes (frameJson type message action)

def MAX_NOTIFICATION_SIZE : Nat := 200

/-- Embedding of `send_ble_message`.  `deviceConnected` and `txAvail`
(`pTxCharacteristic != nullptr`) guard the send; otherwise the function only
logs and returns.  The function touches no other program state. -/
def send_ble_message (deviceConnected txAvail : Bool) (type message action : String) :
    Option (List Nat) :=
  if deviceConnected ∧ txAvail then
    let json_string := serializeFrame type message action
    if json_string.length ≤ MAX_NOTIFICATION_SIZE then
      some json_string
    else
      some (json_string.take MAX_NOTIFICATION_SIZE)
  else
    none

/-!
Inbound dispatch: `MyCallbacks::onWrite` (main.cpp lines 104-143)

The callback ignores empty writes, drops undecodable payloads
(`if (error) ... return;`), and otherwise dispatches on `doc["type"] | ""`:
`ai_request`, `test` and `hello` append a decorated entry and reply with a
canned frame, any other type appends the raw message with no reply; every
appending branch then calls `display_next_message()`.  The result pairs the
new history state with the list of notified payloads.
-/

def onWrite (deviceConnected txAvail : Bool) (received_data : String) (s : HistoryState) :
    HistoryState × List (List Nat) :=
  if 0 < received_data.length then
    match parseJson received_data with
    | none => (s, [])
    | some doc =>
      let type := getStrOr doc "type" ""
      let message := getStrOr doc "message" ""
      if type = "ai_request" then
        let s1 := add_message_to_queue s ("🤖 Processing: " ++ message)
        let sent := send_ble_message deviceConnected txAvail
          "ai_response" ("AI Response to: " ++ message) "processed"
        (display_next_message s1, sent.toList)
      else if type = "test" then
        let s1 := add_message_to_queue s ("📱 " ++ message)
        let sent := send_ble_message deviceConnected txAvail
          "test_response" "Hello from ESP32!" "ack"
        (display_next_message s1, sent.toList)
      else if type = "hello" then
        let s1 := add_message_to_queue s ("📱 " ++ message)
        let sent := send_ble_message deviceConnected txAvail
          "welcome" "Hello from ESP32! Ready to chat." "ready"
        (display_next_message s1, sent.toList)
      else
        let s1 := add_message_to_queue s ("📱 " ++ message)
        (display_next_message s1, [])
  else (s, [])


/-!
Central Conversation Log (App.tsx)

`addMessage` (App.tsx lines 211-226) builds ids as
`` `${Date.now()}-${messageIdCounter.current++}` `` — wall-clock milliseconds
composed with a monotonically increasing ref counter.  The QR handlers
`onSuccess` and `handleQRSubmit` (App.tsx lines 667-737) bypass `addMessage`
and append messages built inline with `id: Date.now().toString()` — the
wall-clock value alone.  `Date.now()` is passed in as the `now` argument.
-/

inductive MsgOrigin where
  | ai
  | user
  | device
deriving Repr, DecidableEq

structure LogMessage where
  id : String
  text : String
  origin : MsgOrigin
deriving Repr, DecidableEq

structure LogState where
  messages : List LogMessage
  messageIdCounter : Nat
deriving Repr, DecidableEq

def emptyLog : LogState :=
  { messages := [], messageIdCounter := 0 }

/-- Embedding of `addMessage`: id is `now ++ "-" ++ counter` and the counter
is post-incremented. -/
def addMessage (now : Nat) (s : LogState) (text : String) (origin : MsgOrigin) : LogState :=
  { messages := s.messages ++
      [{ id := toString now ++ "-" ++ toString s.messageIdCounter
         text := text
         origin := origin }]
    messageIdCounter := s.messageIdCounter + 1 }

/-- Embedding of the message construction in `onSuccess` / `handleQRSubmit`:
the inline `Message` literal uses `id: Date.now().toString()` and type
`'device'`, and does not touch `messageIdCounter`. -/
def qrStatusMessage (now : Nat) (s : LogState) (text : String) : LogState :=
  { s with messages := s.messages ++ [{ id := toString now, text := text, origin := .device }] }

/-!
Central outbound write (App.tsx lines 608-626)

`sendBLEMessage` writes the encoded frame with
`rxCharacteristic.writeWithoutResponse`; when that throws, the `catch` block
retries once with `writeWithResponse`; a failure of the retry propagates to
the outer `catch`, which reports the error (`addMessage('❌ Failed to send
message: ...')`) — no further write is attempted.  `succeeds m` says whether
a write in mode `m` would succeed; the result is the list of attempted write
modes in order, paired with whether the send succeeded.
-/

inductive WriteMode where
  | withoutResponse
  | withResponse
deriving Repr, DecidableEq

def writeAttempts (succeeds : WriteMode → Bool) : List WriteMode × Bool :=
  if succeeds .withoutResponse then
    ([.withoutResponse], true)
  else if succeeds .withResponse then
    ([.withoutResponse, .withResponse], true)
  else
    ([.withoutResponse, .withResponse], false)

/-!
Operation sequences over the history queue

The queue is driven by three operations: `add_message_to_queue` (BLE
callbacks, button handler, connection events) and the cursor moves
`display_next_message` / `display_previous_message`.
-/

inductive QueueOp where
  | append (text : String)
  | next
  | prev
deriving Repr, DecidableEq

def applyOp (s : HistoryState) : QueueOp → HistoryState
  | .append t => add_message_to_queue s t
  | .next => display_next_message s
  | .prev => display_previous_message s

def runOps (ops : List QueueOp) : HistoryState :=
  ops.foldl applyOp initialState

/-- The structural invariant of the embedded queue state: the backing array
keeps its fixed size, the entry count never exceeds the capacity, and the
cursor is a valid entry index whenever there is an entry. -/
def QueueInv (s : HistoryState) : Prop :=
  s.message_queue.length = MAX_MESSAGES ∧
  s.message_count ≤ MAX_MESSAGES ∧
  (0 < s.message_count → s.current_message_index < s.message_count)

/-! Concrete inputs used by the witnesses. -/

def c1Msgs : List String :=
  ["m1", "m2", "m3", "m4", "m5", "m6", "m7", "m8", "m9", "m10", "m11"]

def c2Ops : List QueueOp :=
  [.append "a", .next, .prev, .append "b", .append "c", .prev, .prev, .next]

def c3Input : String := "\x7bnot json"

def c4Input : String :=
  "\x7b\"type\":\"test\",\"message\":\"Hello from React Native app!\",\"action\":\"test_message\"\x7d"

def c4Doc : Json :=
  .obj [("type", .str "test"), ("message", .str "Hello from React Native app!"),
        ("action", .str "test_message")]

def c9State : HistoryState := add_message_to_queue initialState "hi"


/-!
Helper lemmas
-/

theorem add_of_lt (s : HistoryState) (m : String) (h : s.message_count < MAX_MESSAGES) :
    (add_message_to_queue s m).message_queue = s.message_queue.set s.message_count m ∧
    (add_message_to_queue s m).message_count = s.message_count + 1 ∧
    (add_message_to_queue s m).current_message_index = s.message_count := by
  have hnot : ¬ MAX_MESSAGES ≤ s.message_count := by omega
  simp only [add_message_to_queue, if_pos h, Nat.add_sub_cancel, if_neg hnot]
  exact ⟨trivial, trivial, trivial⟩

theorem add_of_full (s : HistoryState) (m : String) (h : s.message_count = MAX_MESSAGES) :
    (add_message_to_queue s m).message_queue = s.message_queue.drop 1 ++ [m] ∧
    (add_message_to_queue s m).message_count = MAX_MESSAGES ∧
    (add_message_to_queue s m).current_message_index = MAX_MESSAGES - 1 := by
  have hM : MAX_MESSAGES = 10 := rfl
  have h1 : ¬ MAX_MESSAGES < MAX_MESSAGES := by omega
  have h2 : ¬ MAX_MESSAGES ≤ MAX_MESSAGES - 1 := by omega
  simp only [add_message_to_queue, h, if_neg h1, if_neg h2]
  exact ⟨trivial, trivial, trivial⟩

theorem next_queue_eq (s : HistoryState) :
    (display_next_message s).message_queue = s.message_queue := by
  unfold display_next_message; split <;> rfl

theorem next_count_eq (s : HistoryState) :
    (display_next_message s).message_count = s.message_count := by
  unfold display_next_message; split <;> rfl

theorem prev_queue_eq (s : HistoryState) :
    (display_previous_message s).message_queue = s.message_queue := by
  unfold display_previous_message; split <;> rfl

theorem prev_count_eq (s : HistoryState) :
    (display_previous_message s).message_count = s.message_count := by
  unfold display_previous_message; split <;> rfl

theorem entries_next_eq (s : HistoryState) :
    entries (display_next_message s) = entries s := by
  unfold entries; rw [next_queue_eq, next_count_eq]

/-- Closed form for any sequence of appends from the boot state: the count is
the length clamped at capacity, the backing array holds the last
`MAX_MESSAGES` appended values followed by untouched initial slots, and the
cursor sits on the last entry. -/
theorem appendAll_formula (msgs : List String) :
    (appendAll msgs).message_count = min msgs.length MAX_MESSAGES ∧
    (appendAll msgs).message_queue
      = msgs.drop (msgs.length - MAX_MESSAGES)
        ++ List.replicate (MAX_MESSAGES - msgs.length) "" ∧
    (appendAll msgs).current_message_index = min msgs.length MAX_MESSAGES - 1 := by
  have hM : MAX_MESSAGES = 10 := rfl
  induction msgs using List.reverseRecOn with
  | nil => exact ⟨by decide, by decide, by decide⟩
  | append_singleton l m ih =>
    obtain ⟨hc, hq, hx⟩ := ih
    have hfold : appendAll (l ++ [m]) = add_message_to_queue (appendAll l) m := by
      simp [appendAll, List.foldl_append]
    have hlen : (l ++ [m]).length = l.length + 1 := by simp
    by_cases hlt : l.length < MAX_MESSAGES
    · have hc' : (appendAll l).message_count = l.length := by omega
      obtain ⟨hq', hcnt, hcur⟩ := add_of_lt (appendAll l) m (by omega)
      refine ⟨?_, ?_, ?_⟩
      · rw [hfold, hcnt, hc', hlen]; omega
      · rw [hfold, hq', hq, hc']
        have hd0 : l.length - MAX_MESSAGES = 0 := by omega
        rw [hd0, List.drop_zero]
        rw [List.set_append_right l.length m (Nat.le_refl _), Nat.sub_self]
        have hrep : MAX_MESSAGES - l.length = (MAX_MESSAGES - (l.length + 1)) + 1 := by omega
        rw [hrep, List.replicate_succ, List.set_cons_zero]
        have hd1 : (l ++ [m]).length - MAX_MESSAGES = 0 := by omega
        rw [hd1, List.drop_zero, List.append_assoc, List.singleton_append, hlen]
      · rw [hfold, hcur, hc', hlen]; omega
    · have hc' : (appendAll l).message_count = MAX_MESSAGES := by omega
      obtain ⟨hq', hcnt, hcur⟩ := add_of_full (appendAll l) m hc'
      refine ⟨?_, ?_, ?_⟩
      · rw [hfold, hcnt, hlen]; omega
      · rw [hfold, hq', hq]
        have hr0 : MAX_MESSAGES - l.length = 0 := by omega
        rw [hr0, List.replicate_zero, List.append_nil, List.drop_drop]
        have hr1 : MAX_MESSAGES - (l ++ [m]).length = 0 := by omega
        rw [hr1, List.replicate_zero, List.append_nil, hlen]
        have hk : l.length + 1 - MAX_MESSAGES ≤ l.length := by omega
        rw [List.drop_append_of_le_length hk]
        have : l.length - MAX_MESSAGES + 1 = l.length + 1 - MAX_MESSAGES := by omega
        rw [this]
      · rw [hfold, hcur, hlen]; omega

/-- Appending to a well-formed state appends to the visible entries, dropping
the oldest entry when the queue is full. -/
theorem entries_add_eq (s : HistoryState) (m : String)
    (hlen : s.message_queue.length = MAX_MESSAGES)
    (hcount : s.message_count ≤ MAX_MESSAGES) :
    entries (add_message_to_queue s m)
      = (entries s ++ [m]).drop (s.message_count + 1 - MAX_MESSAGES) ∧
    (add_message_to_queue s m).message_count = min (s.message_count + 1) MAX_MESSAGES := by
  have hM : MAX_MESSAGES = 10 := rfl
  by_cases h : s.message_count < MAX_MESSAGES
  · obtain ⟨hq, hc, _⟩ := add_of_lt s m h
    constructor
    · unfold entries
      rw [hq, hc]
      have hset : s.message_queue.set s.message_count m
          = s.message_queue.take s.message_count
            ++ m :: s.message_queue.drop (s.message_count + 1) := by
        rw [List.set_eq_take_append_cons_drop, if_pos (by omega)]
      rw [hset, List.take_append_eq_append_take]
      have htk : (s.message_queue.take s.message_count).length = s.message_count := by
        rw [List.length_take]; omega
      rw [List.take_of_length_le (by omega), htk, Nat.add_sub_cancel_left]
      have hd0 : s.message_count + 1 - MAX_MESSAGES = 0 := by omega
      rw [hd0, List.drop_zero]
      simp
    · rw [hc]; omega
  · have h10 : s.message_count = MAX_MESSAGES := by omega
    obtain ⟨hq, hc, _⟩ := add_of_full s m h10
    constructor
    · unfold entries
      rw [hq, hc, h10]
      have hlen2 : (s.message_queue.drop 1 ++ [m]).length = MAX_MESSAGES := by
        simp [hlen, hM]
      rw [List.take_of_length_le (by omega)]
      have htop : s.message_queue.take MAX_MESSAGES = s.message_queue := by
        rw [← hlen, List.take_length]
      rw [htop]
      have hd1 : MAX_MESSAGES + 1 - MAX_MESSAGES = 1 := by omega
      rw [hd1, List.drop_append_of_le_length (by omega)]
    · rw [hc, h10]; omega

theorem getLast?_drop_concat (l : List String) (a : String) (k : Nat) (h : k ≤ l.length) :
    ((l ++ [a]).drop k).getLast? = some a := by
  rw [List.drop_append_of_le_length h, List.getLast?_concat]

theorem queueInv_initial : QueueInv initialState := by
  refine ⟨by decide, by decide, ?_⟩
  intro h
  exact absurd h (by decide)

theorem queueInv_add (s : HistoryState) (m : String) (h : QueueInv s) :
    QueueInv (add_message_to_queue s m) := by
  obtain ⟨hlen, hcount, hcur⟩ := h
  have hM : MAX_MESSAGES = 10 := rfl
  by_cases hlt : s.message_count < MAX_MESSAGES
  · obtain ⟨hq, hc, hx⟩ := add_of_lt s m hlt
    exact ⟨by rw [hq, List.length_set]; exact hlen,
           by omega,
           fun _ => by omega⟩
  · have h10 : s.message_count = MAX_MESSAGES := by omega
    obtain ⟨hq, hc, hx⟩ := add_of_full s m h10
    refine ⟨?_, by omega, fun _ => by omega⟩
    rw [hq]; simp [hlen]; omega

theorem queueInv_next (s : HistoryState) (h : QueueInv s) :
    QueueInv (display_next_message s) := by
  obtain ⟨hlen, hcount, hcur⟩ := h
  unfold QueueInv display_next_message
  split
  · rename_i hcond
    simp only
    exact ⟨hlen, hcount, fun _ => by omega⟩
  · exact ⟨hlen, hcount, hcur⟩

theorem queueInv_prev (s : HistoryState) (h : QueueInv s) :
    QueueInv (display_previous_message s) := by
  obtain ⟨hlen, hcount, hcur⟩ := h
  unfold QueueInv display_previous_message
  split
  · rename_i hcond
    simp only
    refine ⟨hlen, hcount, fun hpos => ?_⟩
    have := hcur hpos
    omega
  · exact ⟨hlen, hcount, hcur⟩

theorem queueInv_foldl (ops : List QueueOp) (s : HistoryState) (h : QueueInv s) :
    QueueInv (ops.foldl applyOp s) := by
  induction ops generalizing s with
  | nil => exact h
  | cons op rest ih =>
    rw [List.foldl_cons]
    apply ih
    cases op with
    | append t => exact queueInv_add s t h
    | next => exact queueInv_next s h
    | prev => exact queueInv_prev s h

/-!
Claim theorems
-/

/-- C1.  Bounded FIFO: after any sequence of more than `MAX_MESSAGES = 10`
appends on the initially empty queue, the backing array (all of which is
then live, as the count equals the capacity) holds exactly the last 10
appended values in append order, and the cursor points at the last element
(index 9 = count - 1). -/
theorem C1_bounded_fifo (msgs : List String) (h : MAX_MESSAGES < msgs.length) :
    (appendAll msgs).message_queue = msgs.drop (msgs.length - MAX_MESSAGES) ∧
    (appendAll msgs).message_queue.length = MAX_MESSAGES ∧
    (appendAll msgs).message_count = MAX_MESSAGES ∧
    (appendAll msgs).current_message_index = MAX_MESSAGES - 1 := by
  have hM : MAX_MESSAGES = 10 := rfl
  obtain ⟨hc, hq, hx⟩ := appendAll_formula msgs
  have hr0 : MAX_MESSAGES - msgs.length = 0 := by omega
  have hqq : (appendAll msgs).message_queue = msgs.drop (msgs.length - MAX_MESSAGES) := by
    rw [hq, hr0, List.replicate_zero, List.append_nil]
  refine ⟨hqq, ?_, by omega, by omega⟩
  rw [hqq, List.length_drop]
  omega

/-- Witness for C1 at a concrete sequence of 11 appends. -/
theorem C1_bounded_fifo_witness :
    MAX_MESSAGES < c1Msgs.length ∧
    ((appendAll c1Msgs).message_queue = c1Msgs.drop (c1Msgs.length - MAX_MESSAGES) ∧
     (appendAll c1Msgs).message_queue.length = MAX_MESSAGES ∧
     (appendAll c1Msgs).message_count = MAX_MESSAGES ∧
     (appendAll c1Msgs).current_message_index = MAX_MESSAGES - 1) :=
  ⟨by decide, C1_bounded_fifo c1Msgs (by decide)⟩

/-- C2.  Invariant: after every sequence of operations (append, next,
previous) from the empty queue, the entry count never exceeds the capacity
10, and whenever it is positive the cursor is a valid index below it. -/
theorem C2_history_invariant (ops : List QueueOp) :
    (runOps ops).message_count ≤ MAX_MESSAGES ∧
    (0 < (runOps ops).message_count →
      (runOps ops).current_message_index < (runOps ops).message_count) := by
  have h := queueInv_foldl ops initialState queueInv_initial
  exact ⟨h.2.1, h.2.2⟩

/-- Witness for C2 at a concrete operation sequence with a populated queue. -/
theorem C2_history_invariant_witness :
    (runOps c2Ops).message_count ≤ MAX_MESSAGES ∧
    0 < (runOps c2Ops).message_count ∧
    (runOps c2Ops).current_message_index < (runOps c2Ops).message_count :=
  ⟨(C2_history_invariant c2Ops).1, by decide, (C2_history_invariant c2Ops).2 (by decide)⟩

/-- C3.  Malformed inbound on the peripheral: any received byte string that
does not decode as JSON leaves the history state (hence the queue length)
unchanged and transmits no reply frame. -/
theorem C3_malformed_drop (connected tx : Bool) (input : String) (s : HistoryState)
    (hparse : parseJson input = none) :
    onWrite connected tx input s = (s, []) := by
  unfold onWrite
  rw [hparse]
  split <;> rfl

/-- Witness for C3 at the spec's example input, the bytes `"{not json"`. -/
theorem C3_malformed_drop_witness :
    parseJson c3Input = none ∧ onWrite true true c3Input initialState = (initialState, []) :=
  ⟨rfl, C3_malformed_drop true true c3Input initialState rfl⟩

/-- C4.  Dispatch of a `test` frame: a valid JSON document whose `type`
field is `"test"` appends exactly one entry `"📱 " ++ message` to the
history (evicting the oldest entry when full), and the peripheral notifies
exactly one reply payload, the canned `test_response` frame, whose decoded
`type` field is `"test_response"`. -/
theorem C4_dispatch_test (s : HistoryState) (input : String) (doc : Json)
    (hlen : s.message_queue.length = MAX_MESSAGES)
    (hcount : s.message_count ≤ MAX_MESSAGES)
    (hne : 0 < input.length)
    (hparse : parseJson input = some doc)
    (htype : getStrOr doc "type" "" = "test") :
    entries (onWrite true true input s).1
      = (entries s ++ ["📱 " ++ getStrOr doc "message" ""]).drop
          (s.message_count + 1 - MAX_MESSAGES) ∧
    (onWrite true true input s).1.message_count = min (s.message_count + 1) MAX_MESSAGES ∧
    (entries (onWrite true true input s).1).getLast?
      = some ("📱 " ++ getStrOr doc "message" "") ∧
    (onWrite true true input s).2 = [serializeFrame "test_response" "Hello from ESP32!" "ack"] ∧
    (parseJson (frameJson "test_response" "Hello from ESP32!" "ack")).map
      (fun j => getStrOr j "type" "") = some "test_response" := by
  have hM : MAX_MESSAGES = 10 := rfl
  have hred : onWrite true true input s
      = (display_next_message
           (add_message_to_queue s ("📱 " ++ getStrOr doc "message" "")),
         (send_ble_message true true "test_response" "Hello from ESP32!" "ack").toList) := by
    simp only [onWrite, if_pos hne, hparse, htype]
    rw [if_neg (by decide : ¬ ("test" : String) = "ai_request"), if_pos trivial]
  obtain ⟨he, hc⟩ := entries_add_eq s ("📱 " ++ getStrOr doc "message" "") hlen hcount
  have h1 : entries (onWrite true true input s).1
      = (entries s ++ ["📱 " ++ getStrOr doc "message" ""]).drop
          (s.message_count + 1 - MAX_MESSAGES) := by
    rw [hred]; exact (entries_next_eq _).trans he
  refine ⟨h1, ?_, ?_, ?_, rfl⟩
  · rw [hred]; exact (next_count_eq _).trans hc
  · rw [h1]
    apply getLast?_drop_concat
    have hes : (entries s).length = s.message_count := by
      unfold entries; rw [List.length_take]; omega
    omega
  · rw [hred]; rfl

/-- Witness for C4 at the exact frame from the spec scenario, starting from
the boot state. -/
theorem C4_dispatch_test_witness :
    parseJson c4Input = some c4Doc ∧
    getStrOr c4Doc "type" "" = "test" ∧
    (entries (onWrite true true c4Input initialState).1
        = (entries initialState ++ ["📱 " ++ getStrOr c4Doc "message" ""]).drop
            (initialState.message_count + 1 - MAX_MESSAGES) ∧
     (onWrite true true c4Input initialState).1.message_count
        = min (initialState.message_count + 1) MAX_MESSAGES ∧
     (entries (onWrite true true c4Input initialState).1).getLast?
        = some ("📱 " ++ getStrOr c4Doc "message" "") ∧
     (onWrite true true c4Input initialState).2
        = [serializeFrame "test_response" "Hello from ESP32!" "ack"] ∧
     (parseJson (frameJson "test_response" "Hello from ESP32!" "ack")).map
        (fun j => getStrOr j "type" "") = some "test_response") :=
  ⟨rfl, rfl,
   C4_dispatch_test initialState c4Input c4Doc (by decide) (by decide) (by decide) rfl rfl⟩

/-- C5.  Peripheral send size policy: while connected (with the notify
characteristic available), a frame whose encoded JSON is at most
`MAX_NOTIFICATION_SIZE = 200` bytes is notified intact, a longer one is
truncated to exactly the first 200 encoded bytes; either way the notified
payload never exceeds 200 bytes. -/
theorem C5_send_size_policy (type message action : String) :
    send_ble_message true true type message action
      = some (if (serializeFrame type message action).length ≤ MAX_NOTIFICATION_SIZE
              then serializeFrame type message action
              else (serializeFrame type message action).take MAX_NOTIFICATION_SIZE) ∧
    ((send_ble_message true true type message action).getD []).length
      ≤ MAX_NOTIFICATION_SIZE := by
  constructor
  · simp only [send_ble_message, and_self, if_true]
    split <;> rfl
  · simp only [send_ble_message, and_self, if_true]
    split
    · rename_i h
      simpa using h
    · simp [List.length_take]

/-- C6.  Sending while not connected, or with no transmit characteristic,
notifies nothing: `send_ble_message` returns without transmitting (the
embedded function is otherwise pure, so no protocol state changes, and it
returns normally rather than raising). -/
theorem C6_not_connected_noop (b : Bool) (type message action : String) :
    send_ble_message false b type message action = none ∧
    send_ble_message b false type message action = none := by
  constructor <;> simp [send_ble_message]

/-- C7 (code bug).  The QR-code handlers append Conversation Log messages
whose ids are `Date.now().toString()` alone: two such messages created in
the same millisecond (here `now = 1234` twice) collide, violating the claimed
global uniqueness from a monotonic counter. -/
theorem C7_id_collision :
    ¬ ((qrStatusMessage 1234 (qrStatusMessage 1234 emptyLog
          "📱 QR Code scanned! Found ESP32 with service: 6e400001...")
          "❌ Invalid QR code format. Please scan a valid ESP32 QR code.").messages.map
        LogMessage.id).Nodup := by decide

/-- C8.  Central write retry discipline: the first attempt is always the
unacknowledged write; the acknowledged write is attempted exactly when the
first fails (so never more than two attempts); the send is reported failed
exactly when both modes fail. -/
theorem C8_write_retry (succeeds : WriteMode → Bool) :
    (writeAttempts succeeds).1.head? = some .withoutResponse ∧
    (writeAttempts succeeds).1
      = (if succeeds .withoutResponse then [.withoutResponse]
         else [.withoutResponse, .withResponse]) ∧
    (WriteMode.withResponse ∈ (writeAttempts succeeds).1
      ↔ succeeds .withoutResponse = false) ∧
    ((writeAttempts succeeds).2 = false
      ↔ (succeeds .withoutResponse = false ∧ succeeds .withResponse = false)) := by
  unfold writeAttempts
  cases h1 : succeeds .withoutResponse <;> cases h2 : succeeds .withResponse <;>
    simp [h1, h2]

/-- C9.  Cursor clamping: with a nonempty queue, `display_previous_message`
at index 0 and `display_next_message` at the last index leave the state
(in particular the cursor) unchanged. -/
theorem C9_cursor_clamp (s : HistoryState) (h : 0 < s.message_count) :
    (s.current_message_index = 0 → display_previous_message s = s) ∧
    (s.current_message_index = s.message_count - 1 → display_next_message s = s) := by
  constructor
  · intro h0
    unfold display_previous_message
    rw [if_neg (by omega)]
  · intro hl
    unfold display_next_message
    rw [if_neg (by omega)]

/-- Witness for C9 on the one-entry queue, where the cursor is both at 0 and
at the last index. -/
theorem C9_cursor_clamp_witness :
    0 < c9State.message_count ∧
    display_previous_message c9State = c9State ∧
    display_next_message c9State = c9State :=
  ⟨by decide,
   (C9_cursor_clamp c9State (by decide)).1 (by decide),
   (C9_cursor_clamp c9State (by decide)).2 (by decide)⟩

/-- C10.  Frame property of cursor navigation: `display_next_message` and
`display_previous_message` never change the backing array or the entry
count — only the cursor (and the displayed label) move. -/
theorem C10_nav_frame (s : HistoryState) :
    (display_next_message s).message_queue = s.message_queue ∧
    (display_next_message s).message_count = s.message_count ∧
    (display_previous_message s).message_queue = s.message_queue ∧
    (display_previous_message s).message_count = s.message_count :=
  ⟨next_queue_eq s, next_count_eq s, prev_queue_eq s, prev_count_eq s⟩
